import Mathlib

/-
  Verification development for the meditate-pwa offline caching and
  fetch-interception layer (service-worker.js) and the cache query/mutate
  facade (app.js).

  The embedding models:
  - responses as status plus byte body, with the network-error response of
    the platform (Response.error in the browser) marked by a flag;
  - the network as a function from a request key (URL path string) to
    either a rejection or a resolved response;
  - a cache (named store) as an association list from keys to responses;
  - the cache namespace as an association list from store names to stores.

  Platform primitives the source calls (cache.match, cache.put, cache.add,
  cache.addAll, caches.keys, caches.delete) are modelled from their
  documented Cache API contracts; the fetch handler, install handler,
  activate handler and the app-side facade are translated line by line from
  service-worker.js and app.js.
-/

namespace Meditate

/-- A captured HTTP response: status code, network-error flag (the
platform value produced by Response.error has it set) and body bytes. -/
structure Response where
  status : Nat
  isNetworkError : Bool
  body : List Nat
deriving DecidableEq

/-- The ok flag of a response: status in the 2xx range, as in the fetch
API. -/
def Response.ok (r : Response) : Bool := decide (200 ≤ r.status ∧ r.status < 300)

/-- The explicit network-error response value (Response.error in the
browser): status 0, flagged as a network error, empty body. -/
def Response.netError : Response := ⟨0, true, []⟩

/-- Outcome of a network fetch: a rejection, or a resolved response of any
status. -/
abbrev FetchOutcome := Except Unit Response

/-- The network, modelled as a deterministic map from request keys to
fetch outcomes. -/
abbrev Net := String → FetchOutcome

/-- A named store: association list from request keys to captured
responses. -/
abbrev Store := List (String × Response)

/-- The store namespace: association list from store names to stores. -/
abbrev CacheNamespace := List (String × Store)

/-- Lookup of the first entry for a key in an association list. -/
def lookupKey {β : Type} : List (String × β) → String → Option β
  | [], _ => none
  | e :: t, k => if e.1 = k then some e.2 else lookupKey t k

/-- Removal of every entry for a key from an association list. -/
def removeKey {β : Type} : List (String × β) → String → List (String × β)
  | [], _ => []
  | e :: t, k => if e.1 = k then removeKey t k else e :: removeKey t k

/-- Overwriting insertion: removes any entry for the key, then appends the
new one. -/
def setKey {β : Type} (l : List (String × β)) (k : String) (v : β) : List (String × β) :=
  removeKey l k ++ [(k, v)]

/-- cache.match on a single store. -/
def storeMatch (s : Store) (k : String) : Option Response := lookupKey s k

/-- cache.put: stores the response under the key, replacing any previous
entry. -/
def storePut (s : Store) (k : String) (r : Response) : Store := setKey s k r

/-- cache.delete on a single store. -/
def storeDelete (s : Store) (k : String) : Store := removeKey s k

/-- caches.open: the store of that name, or a fresh empty store. -/
def nsOpen (ns : CacheNamespace) (n : String) : Store := (lookupKey ns n).getD []

/-- Writing a named store back into the namespace. -/
def nsSet (ns : CacheNamespace) (n : String) (s : Store) : CacheNamespace := setKey ns n s

/-- caches.match: first matching entry across the stores of the namespace,
in order. -/
def nsMatch : CacheNamespace → String → Option Response
  | [], _ => none
  | e :: t, k =>
    match lookupKey e.2 k with
    | some r => some r
    | none => nsMatch t k

/-- caches.keys: the list of store names. -/
def nsKeys (ns : CacheNamespace) : List String := ns.map Prod.fst

/-- Whether the first list begins with the second (JS String.startsWith on
char lists). -/
def beginsWith : List Char → List Char → Bool
  | _, [] => true
  | [], _ :: _ => false
  | c :: cs, d :: ds => decide (c = d) && beginsWith cs ds

/-- Whether the first list has the second as a contiguous segment (JS
String.includes on char lists). -/
def containsSeq : List Char → List Char → Bool
  | [], needle => beginsWith [] needle
  | c :: cs, needle => beginsWith (c :: cs) needle || containsSeq cs needle

/-- JS String.startsWith. -/
def startsWithStr (s t : String) : Bool := beginsWith s.toList t.toList

/-- JS String.includes. -/
def includesStr (s t : String) : Bool := containsSeq s.toList t.toList

/-- JS Array.includes over a string list. -/
def listHasStr : List String → String → Bool
  | [], _ => false
  | a :: t, s => decide (a = s) || listHasStr t s

/-- const CACHE_NAME = "calmstart-shell-v3" in service-worker.js. -/
def CACHE_NAME : String := "calmstart-shell-v3"

/-- The audio store name used by both service-worker.js and app.js. -/
def AUDIO_CACHE_NAME : String := "calmstart-audio-v1"

/-- const SHELL_ASSETS in service-worker.js. -/
def SHELL_ASSETS : List String :=
  ["./", "./index.html", "./app.html", "./styles.css", "./app.js",
   "./manifest.webmanifest", "./privacy.html", "./sessions.json",
   "./assets/icon-192.png", "./assets/icon-512.png"]

/-- Shell classification in the fetch handler:
SHELL_ASSETS.includes(url.pathname) || SHELL_ASSETS.includes("." + url.pathname). -/
def isShellRequest (p : String) : Bool :=
  listHasStr SHELL_ASSETS p || listHasStr SHELL_ASSETS (String.append (".") p)

/-- Audio classification in the fetch handler:
url.pathname.includes("/audio/"). -/
def isAudioRequest (p : String) : Bool := includesStr p ("/audio/")

/-- Result of one run of the fetch handler: the value the caller receives
(a response, or a propagated rejection), the namespace afterwards, and how
many network fetches were performed. -/
structure HandleResult where
  response : Except Unit Response
  ns : CacheNamespace
  fetchCount : Nat

/-- The fetch event handler of service-worker.js: shell branch
(cache-first over the whole namespace, no write-back), audio branch
(cache-first on the audio store, write-through of any resolved response via
cache.put), default branch (network-first, falling back to a namespace-wide
lookup and then to Response.error()). -/
def handleFetch (net : Net) (ns : CacheNamespace) (p : String) : HandleResult :=
  if isShellRequest p then
    match nsMatch ns p with
    | some r => ⟨Except.ok r, ns, 0⟩
    | none => ⟨net p, ns, 1⟩
  else if isAudioRequest p then
    match storeMatch (nsOpen ns AUDIO_CACHE_NAME) p with
    | some cached => ⟨Except.ok cached, ns, 0⟩
    | none =>
      match net p with
      | Except.error e => ⟨Except.error e, ns, 1⟩
      | Except.ok resp =>
        ⟨Except.ok resp,
         nsSet ns AUDIO_CACHE_NAME (storePut (nsOpen ns AUDIO_CACHE_NAME) p resp), 1⟩
  else
    match net p with
    | Except.ok resp => ⟨Except.ok resp, ns, 1⟩
    | Except.error _ =>
      match nsMatch ns p with
      | some cached => ⟨Except.ok cached, ns, 1⟩
      | none => ⟨Except.ok Response.netError, ns, 1⟩

/-- isSessionCached of app.js. The parameter models the outcome of the
store open and lookup steps inside the try block: an error there is caught
and yields false; otherwise the function returns whether a matching entry
exists. -/
def isSessionCached (cacheOutcome : Except Unit Store) (fileUrl : String) : Bool :=
  match cacheOutcome with
  | Except.error _ => false
  | Except.ok cache => (storeMatch cache fileUrl).isSome

/-- cache.add of the Cache API, called by the offline toggle handler in
app.js: fetches the url; if the fetch rejects or the response status is not
ok (not 2xx), the whole operation rejects and nothing is stored; otherwise
the response is stored under the url. -/
def cacheAdd (net : Net) (cache : Store) (url : String) : Except Unit Store :=
  match net url with
  | Except.error _ => Except.error ()
  | Except.ok resp =>
    if resp.ok then Except.ok (storePut cache url resp) else Except.error ()

/-- The checked branch of the offlineToggle change handler in app.js
(markOffline): await cache.add(current.file) inside a try block whose catch
leaves the store untouched. Returns the store afterwards and whether the
operation succeeded. -/
def offlineToggleOn (net : Net) (cache : Store) (url : String) : Store × Bool :=
  match cacheAdd net cache url with
  | Except.ok s => (s, true)
  | Except.error _ => (cache, false)

/-- The unchecked branch of the offlineToggle change handler in app.js
(unmarkOffline): await cache.delete(current.file). -/
def offlineToggleOff (cache : Store) (url : String) : Store := storeDelete cache url

/-- Whether a fetch outcome counts as a failed retrieval in the sense of
cache.addAll and cache.add: a rejection, or a resolved response whose
status is not ok. -/
def fetchFailed (net : Net) (u : String) : Prop :=
  match net u with
  | Except.error _ => True
  | Except.ok r => r.ok = false

/-- Fetching a list of urls for cache.addAll: rejects as soon as any fetch
rejects or resolves with a non-ok status, otherwise returns all pairs. -/
def fetchAll (net : Net) : List String → Except Unit (List (String × Response))
  | [] => Except.ok []
  | u :: us =>
    match net u with
    | Except.error _ => Except.error ()
    | Except.ok r =>
      if r.ok then
        match fetchAll net us with
        | Except.error _ => Except.error ()
        | Except.ok rest => Except.ok ((u, r) :: rest)
      else Except.error ()

/-- cache.addAll of the Cache API: all urls are fetched; if any single one
fails, the whole operation rejects and no entry is written (batch cache
operations are atomic); on success all pairs are written. -/
def cacheAddAll (net : Net) (cache : Store) (urls : List String) : Except Unit Store :=
  match fetchAll net urls with
  | Except.error _ => Except.error ()
  | Except.ok pairs => Except.ok (pairs.foldl (fun c p => storePut c p.1 p.2) cache)

/-- The install handler of service-worker.js:
caches.open(CACHE_NAME).then(cache => cache.addAll(SHELL_ASSETS)) under
event.waitUntil. On failure the event promise rejects and the namespace is
unchanged. -/
def installSW (net : Net) (ns : CacheNamespace) : Except Unit CacheNamespace :=
  match cacheAddAll net (nsOpen ns CACHE_NAME) SHELL_ASSETS with
  | Except.error _ => Except.error ()
  | Except.ok shell => Except.ok (nsSet ns CACHE_NAME shell)

/-- The deletion test of the activate handler in service-worker.js:
k !== CACHE_NAME && !k.startsWith("calmstart-audio"). -/
def shouldDelete (k : String) : Bool :=
  !(decide (k = CACHE_NAME)) && !(startsWithStr k ("calmstart-audio"))

/-- The activate handler of service-worker.js: enumerates caches.keys()
and deletes every store whose name passes the deletion test. -/
def activateNs : CacheNamespace → CacheNamespace
  | [] => []
  | e :: t => if shouldDelete e.1 then activateNs t else e :: activateNs t

/-- Service-worker lifecycle state: the namespace and the currently active
version, if any. -/
structure SWState where
  ns : CacheNamespace
  activeVersion : Option String

/-- Install followed by activation, under the ServiceWorker lifecycle
contract for event.waitUntil: if the install promise rejects the new worker
never activates and the previously active version keeps serving against an
unchanged namespace; on success the new version activates and the activate
handler reaps old stores. -/
def installAndActivate (net : Net) (st : SWState) : SWState :=
  match installSW net st.ns with
  | Except.error _ => st
  | Except.ok ns2 => ⟨activateNs ns2, some CACHE_NAME⟩

/-- The operations that can touch the store namespace: an intercepted
request, the offline toggle in either direction, an install, and an
activation. -/
inductive AppOp where
  | request (net : Net) (p : String)
  | toggleOn (net : Net) (url : String)
  | toggleOff (url : String)
  | install (net : Net)
  | activate

/-- Effect of one operation on the namespace. -/
def stepNs (ns : CacheNamespace) : AppOp → CacheNamespace
  | AppOp.request net p => (handleFetch net ns p).ns
  | AppOp.toggleOn net url =>
    nsSet ns AUDIO_CACHE_NAME (offlineToggleOn net (nsOpen ns AUDIO_CACHE_NAME) url).1
  | AppOp.toggleOff url =>
    nsSet ns AUDIO_CACHE_NAME (offlineToggleOff (nsOpen ns AUDIO_CACHE_NAME) url)
  | AppOp.install net =>
    match installSW net ns with
    | Except.ok ns2 => ns2
    | Except.error _ => ns
  | AppOp.activate => activateNs ns

/-- Running a sequence of operations from a namespace. -/
def runOps (ns : CacheNamespace) (ops : List AppOp) : CacheNamespace := ops.foldl stepNs ns

/-- Whether a key is present in the audio store of a namespace. -/
def audioHas (ns : CacheNamespace) (k : String) : Bool :=
  (storeMatch (nsOpen ns AUDIO_CACHE_NAME) k).isSome

/-- Whether an operation performed a network fetch of the key that
resolved (the body arrived in full); for the toggle, cache.add further
requires an ok status before anything is stored. -/
def AppOp.resolvedFetchOf : AppOp → String → Prop
  | AppOp.request net p, k => p = k ∧ ∃ r, net p = Except.ok r
  | AppOp.toggleOn net url, k => url = k ∧ ∃ r, net url = Except.ok r ∧ r.ok = true
  | _, _ => False

/-- Number of entries a store holds for a key. -/
def countKey : Store → String → Nat
  | [], _ => 0
  | e :: t, k => (if e.1 = k then 1 else 0) + countKey t k

/-- A concrete resolved response with a non-success status. -/
def resp404 : Response := ⟨404, false, [1, 2, 3]⟩

/-- A concrete resolved response with a success status. -/
def resp200 : Response := ⟨200, false, [7, 8]⟩

/-- A network on which every fetch resolves with status 404. -/
def net404 : Net := fun _ => Except.ok resp404

/-- A network on which every fetch resolves with status 200. -/
def netOk : Net := fun _ => Except.ok resp200

/-- A network on which every fetch rejects (unreachable). -/
def netFail : Net := fun _ => Except.error ()

theorem lookupKey_append {β : Type} (l m : List (String × β)) (k : String) :
    lookupKey (l ++ m) k =
      match lookupKey l k with
      | some v => some v
      | none => lookupKey m k := by
  induction l with
  | nil => simp [lookupKey]
  | cons e t ih =>
    by_cases h : e.1 = k
    · simp [lookupKey, h]
    · simp [lookupKey, h, ih]

theorem lookupKey_removeKey {β : Type} (l : List (String × β)) (u k : String) :
    lookupKey (removeKey l u) k = if u = k then none else lookupKey l k := by
  induction l with
  | nil => simp [lookupKey, removeKey]
  | cons e t ih =>
    unfold removeKey
    by_cases h : e.1 = u
    · rw [if_pos h, ih]
      by_cases hk : u = k
      · simp [hk]
      · have hek : ¬ e.1 = k := by rw [h]; exact hk
        simp [hk, lookupKey, hek]
    · rw [if_neg h]
      unfold lookupKey
      by_cases hek : e.1 = k
      · have hk : ¬ u = k := by
          intro hu
          exact h (by rw [hek, hu])
        simp [hek, hk]
      · simp [hek, ih]

theorem lookupKey_setKey {β : Type} (l : List (String × β)) (u k : String) (v : β) :
    lookupKey (setKey l u v) k = if u = k then some v else lookupKey l k := by
  unfold setKey
  rw [lookupKey_append, lookupKey_removeKey]
  by_cases h : u = k
  · simp [h, lookupKey]
  · cases hs : lookupKey l k <;> simp [h, hs, lookupKey]

theorem removeKey_append {β : Type} (l m : List (String × β)) (k : String) :
    removeKey (l ++ m) k = removeKey l k ++ removeKey m k := by
  induction l with
  | nil => simp [removeKey]
  | cons e t ih =>
    by_cases h : e.1 = k <;> simp [removeKey, h, ih]

theorem removeKey_removeKey {β : Type} (l : List (String × β)) (k : String) :
    removeKey (removeKey l k) k = removeKey l k := by
  induction l with
  | nil => simp [removeKey]
  | cons e t ih =>
    by_cases h : e.1 = k <;> simp [removeKey, h, ih]

theorem setKey_setKey {β : Type} (l : List (String × β)) (k : String) (v w : β) :
    setKey (setKey l k v) k w = setKey l k w := by
  unfold setKey
  rw [removeKey_append, removeKey_removeKey]
  simp [removeKey]

theorem countKey_append (s t : Store) (k : String) :
    countKey (s ++ t) k = countKey s k + countKey t k := by
  induction s with
  | nil => simp [countKey]
  | cons e r ih => simp [countKey, ih]; omega

theorem countKey_removeKey (s : Store) (k : String) :
    countKey (removeKey s k) k = 0 := by
  induction s with
  | nil => simp [countKey, removeKey]
  | cons e t ih =>
    by_cases h : e.1 = k <;> simp [removeKey, countKey, h, ih]

theorem countKey_put (s : Store) (u : String) (r : Response) :
    countKey (storePut s u r) u = 1 := by
  unfold storePut setKey
  rw [countKey_append, countKey_removeKey]
  simp [countKey]

theorem nsOpen_set_same (ns : CacheNamespace) (n : String) (s : Store) :
    nsOpen (nsSet ns n s) n = s := by
  unfold nsOpen nsSet
  rw [lookupKey_setKey]
  simp

theorem nsOpen_set_other (ns : CacheNamespace) (m n : String) (s : Store) (h : ¬ m = n) :
    nsOpen (nsSet ns m s) n = nsOpen ns n := by
  unfold nsOpen nsSet
  rw [lookupKey_setKey]
  simp [h]

theorem lookupKey_activate (ns : CacheNamespace) (n : String)
    (h : shouldDelete n = false) :
    lookupKey (activateNs ns) n = lookupKey ns n := by
  induction ns with
  | nil => rfl
  | cons e t ih =>
    unfold activateNs
    by_cases he : e.1 = n
    · have hd : ¬ shouldDelete e.1 = true := by rw [he, h]; exact Bool.false_ne_true
      rw [if_neg hd]
      simp [lookupKey, he]
    · by_cases hd : shouldDelete e.1 = true
      · rw [if_pos hd, ih]
        simp [lookupKey, he]
      · rw [if_neg hd]
        simp [lookupKey, he, ih]

theorem nsOpen_activate (ns : CacheNamespace) (n : String)
    (h : shouldDelete n = false) :
    nsOpen (activateNs ns) n = nsOpen ns n := by
  unfold nsOpen
  rw [lookupKey_activate ns n h]

theorem nsKeys_cons (e : String × Store) (t : CacheNamespace) :
    nsKeys (e :: t) = e.1 :: nsKeys t := rfl

theorem mem_nsKeys_activate (ns : CacheNamespace) (n : String) :
    n ∈ nsKeys (activateNs ns) ↔ n ∈ nsKeys ns ∧ shouldDelete n = false := by
  induction ns with
  | nil => simp [activateNs, nsKeys]
  | cons e t ih =>
    unfold activateNs
    by_cases hd : shouldDelete e.1 = true
    · rw [if_pos hd, ih, nsKeys_cons]
      constructor
      · rintro ⟨h1, h2⟩
        exact ⟨List.mem_cons_of_mem _ h1, h2⟩
      · rintro ⟨h1, h2⟩
        rcases List.mem_cons.mp h1 with h3 | h3
        · rw [h3, hd] at h2
          simp at h2
        · exact ⟨h3, h2⟩
    · have hd2 : shouldDelete e.1 = false := by
        cases hsd : shouldDelete e.1
        · rfl
        · exact absurd hsd hd
      rw [if_neg hd, nsKeys_cons, nsKeys_cons]
      constructor
      · intro h1
        rcases List.mem_cons.mp h1 with h3 | h3
        · exact ⟨List.mem_cons.mpr (Or.inl h3), by rw [h3]; exact hd2⟩
        · rcases ih.mp h3 with ⟨h4, h5⟩
          exact ⟨List.mem_cons.mpr (Or.inr h4), h5⟩
      · rintro ⟨h1, h2⟩
        rcases List.mem_cons.mp h1 with h3 | h3
        · exact List.mem_cons.mpr (Or.inl h3)
        · exact List.mem_cons.mpr (Or.inr (ih.mpr ⟨h3, h2⟩))

theorem fetchAll_error_of_failed (net : Net) (urls : List String) (u : String)
    (hu : u ∈ urls) (hf : fetchFailed net u) :
    fetchAll net urls = Except.error () := by
  induction urls with
  | nil => cases hu
  | cons a t ih =>
    rcases List.mem_cons.mp hu with h | h
    · subst h
      unfold fetchFailed at hf
      cases hn : net u with
      | error e => simp [fetchAll, hn]
      | ok r =>
        rw [hn] at hf
        simp only at hf
        simp [fetchAll, hn, hf]
    · cases hn : net a with
      | error e => simp [fetchAll, hn]
      | ok r =>
        by_cases hr : r.ok = true
        · simp [fetchAll, hn, hr, ih h]
        · simp at hr
          simp [fetchAll, hn, hr]

theorem fetchAll_ok_map_fst (net : Net) (urls : List String)
    (pairs : List (String × Response)) (h : fetchAll net urls = Except.ok pairs) :
    pairs.map Prod.fst = urls := by
  induction urls generalizing pairs with
  | nil =>
    simp [fetchAll] at h
    subst h
    rfl
  | cons a t ih =>
    cases hn : net a with
    | error e => simp [fetchAll, hn] at h
    | ok r =>
      by_cases hr : r.ok = true
      · simp only [fetchAll, hn, hr, if_true] at h
        cases hrest : fetchAll net t with
        | error e => rw [hrest] at h; simp at h
        | ok rest =>
          rw [hrest] at h
          simp only [Except.ok.injEq] at h
          subst h
          simp [ih rest hrest]
      · simp only [fetchAll, hn, hr, if_false] at h
        simp at h

theorem lookupKey_isSome_of_put (c : Store) (u : String) (v : Response) (k : String)
    (h : (lookupKey c k).isSome = true) :
    (lookupKey (storePut c u v) k).isSome = true := by
  unfold storePut
  rw [lookupKey_setKey]
  by_cases hk : u = k <;> simp [hk, h]

theorem lookupKey_foldl_put_preserved (pairs : List (String × Response)) (c : Store)
    (k : String) (h : (lookupKey c k).isSome = true) :
    (lookupKey (pairs.foldl (fun c p => storePut c p.1 p.2) c) k).isSome = true := by
  induction pairs generalizing c with
  | nil => exact h
  | cons a t ih => exact ih _ (lookupKey_isSome_of_put c a.1 a.2 k h)

theorem lookupKey_foldl_put_mem (pairs : List (String × Response)) (c : Store)
    (k : String) (h : k ∈ pairs.map Prod.fst) :
    (lookupKey (pairs.foldl (fun c p => storePut c p.1 p.2) c) k).isSome = true := by
  induction pairs generalizing c with
  | nil => cases h
  | cons a t ih =>
    rw [List.map_cons] at h
    rw [List.foldl_cons]
    rcases List.mem_cons.mp h with h1 | h1
    · apply lookupKey_foldl_put_preserved
      unfold storePut setKey
      rw [lookupKey_append, lookupKey_removeKey]
      simp [h1, lookupKey]
    · exact ih _ h1

theorem offlineToggleOn_fail_unchanged (net : Net) (cache : Store) (url : String)
    (h : (offlineToggleOn net cache url).2 = false) :
    (offlineToggleOn net cache url).1 = cache := by
  unfold offlineToggleOn at h ⊢
  cases hc : cacheAdd net cache url with
  | ok s => rw [hc] at h; cases h
  | error e => rfl

theorem handleFetch_ns (net : Net) (ns : CacheNamespace) (p : String) :
    (handleFetch net ns p).ns = ns
    ∨ ∃ r, net p = Except.ok r
        ∧ (handleFetch net ns p).ns
            = nsSet ns AUDIO_CACHE_NAME (storePut (nsOpen ns AUDIO_CACHE_NAME) p r) := by
  unfold handleFetch
  by_cases hs : isShellRequest p = true
  · rw [if_pos hs]
    cases hm : nsMatch ns p <;> exact Or.inl rfl
  · rw [if_neg hs]
    by_cases ha : isAudioRequest p = true
    · rw [if_pos ha]
      cases hc : storeMatch (nsOpen ns AUDIO_CACHE_NAME) p with
      | some c => exact Or.inl rfl
      | none =>
        cases hn : net p with
        | error e => exact Or.inl rfl
        | ok r => exact Or.inr ⟨r, rfl, rfl⟩
    · rw [if_neg ha]
      cases hn : net p with
      | ok r => exact Or.inl rfl
      | error e =>
        cases hm : nsMatch ns p <;> exact Or.inl rfl

theorem audioHas_stepNs (ns : CacheNamespace) (op : AppOp) (k : String)
    (h : audioHas (stepNs ns op) k = true) :
    audioHas ns k = true ∨ op.resolvedFetchOf k := by
  cases op with
  | request net p =>
    rcases handleFetch_ns net ns p with h1 | ⟨r, hn, h2⟩
    · left
      simp only [stepNs] at h
      rw [h1] at h
      exact h
    · simp only [stepNs] at h
      rw [h2] at h
      unfold audioHas at h
      rw [nsOpen_set_same] at h
      unfold storePut storeMatch at h
      rw [lookupKey_setKey] at h
      by_cases hpk : p = k
      · exact Or.inr ⟨hpk, r, hn⟩
      · rw [if_neg hpk] at h
        exact Or.inl h
  | toggleOn net url =>
    simp only [stepNs] at h
    unfold audioHas at h
    rw [nsOpen_set_same] at h
    unfold offlineToggleOn at h
    cases hc : cacheAdd net (nsOpen ns AUDIO_CACHE_NAME) url with
    | error e =>
      rw [hc] at h
      exact Or.inl h
    | ok s =>
      rw [hc] at h
      cases hn : net url with
      | error e =>
        simp only [cacheAdd, hn] at hc
        exact Except.noConfusion hc
      | ok r =>
        simp only [cacheAdd, hn] at hc
        by_cases hr : r.ok = true
        · rw [if_pos hr] at hc
          injection hc with hc2
          subst hc2
          unfold storePut storeMatch at h
          rw [lookupKey_setKey] at h
          by_cases huk : url = k
          · exact Or.inr ⟨huk, r, hn, hr⟩
          · rw [if_neg huk] at h
            exact Or.inl h
        · rw [if_neg hr] at hc
          cases hc
  | toggleOff url =>
    left
    simp only [stepNs] at h
    unfold audioHas at h ⊢
    rw [nsOpen_set_same] at h
    unfold offlineToggleOff storeDelete at h
    unfold storeMatch at h ⊢
    rw [lookupKey_removeKey] at h
    by_cases huk : url = k
    · rw [if_pos huk] at h
      simp at h
    · rw [if_neg huk] at h
      exact h
  | install net =>
    left
    simp only [stepNs] at h
    cases hi : installSW net ns with
    | error e =>
      rw [hi] at h
      exact h
    | ok ns2 =>
      rw [hi] at h
      cases hca : cacheAddAll net (nsOpen ns CACHE_NAME) SHELL_ASSETS with
      | error e =>
        simp only [installSW, hca] at hi
        exact Except.noConfusion hi
      | ok shell =>
        simp only [installSW, hca] at hi
        injection hi with hi2
        subst hi2
        unfold audioHas at h ⊢
        rw [nsOpen_set_other ns CACHE_NAME AUDIO_CACHE_NAME shell (by decide)] at h
        exact h
  | activate =>
    left
    simp only [stepNs] at h
    unfold audioHas at h ⊢
    rw [nsOpen_activate ns AUDIO_CACHE_NAME (by decide)] at h
    exact h

theorem audioHas_runOps (ops : List AppOp) (ns : CacheNamespace) (k : String)
    (h : audioHas (runOps ns ops) k = true) :
    audioHas ns k = true ∨ ∃ op ∈ ops, op.resolvedFetchOf k := by
  induction ops generalizing ns with
  | nil => exact Or.inl h
  | cons op t ih =>
    rcases ih (stepNs ns op) h with h1 | h2
    · rcases audioHas_stepNs ns op k h1 with h3 | h4
      · exact Or.inl h3
      · exact Or.inr ⟨op, List.mem_cons_self op t, h4⟩
    · rcases h2 with ⟨o, ho, hf⟩
      exact Or.inr ⟨o, List.mem_cons_of_mem _ ho, hf⟩

/-- C1 (amended): at every store state reachable by a sequence of
operations from the empty namespace, a key present in the audio store
implies the corresponding resource was fully retrieved (the network fetch
resolved) at least once; a rejected or partial retrieval never leaves an
entry. The original claim further required a success status; the
counterexample shows the audio write-through path stores a resolved
response of any status. -/
theorem audioEntry_requires_resolved_fetch (ops : List AppOp) (k : String)
    (h : audioHas (runOps [] ops) k = true) :
    ∃ op ∈ ops, op.resolvedFetchOf k := by
  rcases audioHas_runOps ops [] k h with h1 | h2
  · simp [audioHas, nsOpen, lookupKey, storeMatch] at h1
  · exact h2

/-- C1 witness: a successful toggle leaves an entry, and the run indeed
contains a resolved fetch of the key. -/
theorem audioEntry_requires_resolved_fetch_witness :
    ∃ op ∈ [AppOp.toggleOn netOk ("/audio/rain.mp3")],
      op.resolvedFetchOf ("/audio/rain.mp3") :=
  audioEntry_requires_resolved_fetch [AppOp.toggleOn netOk ("/audio/rain.mp3")]
    ("/audio/rain.mp3") (by decide)

/-- C1 counterexample: a single audio-class request whose fetch resolves
with status 404 leaves an audio-store entry, although the retrieval was not
successful (the stored response has ok = false). -/
theorem audioEntry_nonSuccess_cex :
    audioHas (runOps [] [AppOp.request net404 ("/audio/rain.mp3")]) ("/audio/rain.mp3") = true
    ∧ storeMatch (nsOpen (runOps [] [AppOp.request net404 ("/audio/rain.mp3")])
          AUDIO_CACHE_NAME) ("/audio/rain.mp3") = some resp404
    ∧ resp404.ok = false :=
  ⟨by decide, by decide, by decide⟩

/-- C2 (amended): every default-class request terminates in a
response-shaped value: the network response on success, a cached entry on
network failure, and otherwise the explicit network-error response. Shell-
and audio-class requests, by contrast, propagate a fetch rejection to the
caller on a cache miss (see the counterexample), which the platform
surfaces as a network error rather than as a response value produced by
this layer. -/
theorem default_class_always_response (net : Net) (ns : CacheNamespace) (p : String)
    (hs : isShellRequest p = false) (ha : isAudioRequest p = false) :
    (∃ r, (handleFetch net ns p).response = Except.ok r)
    ∧ (net p = Except.error () → nsMatch ns p = none →
        (handleFetch net ns p).response = Except.ok Response.netError
        ∧ Response.netError.isNetworkError = true) := by
  constructor
  · cases hn : net p with
    | ok r => exact ⟨r, by simp [handleFetch, hs, ha, hn]⟩
    | error e =>
      cases hm : nsMatch ns p with
      | some c => exact ⟨c, by simp [handleFetch, hs, ha, hn, hm]⟩
      | none => exact ⟨Response.netError, by simp [handleFetch, hs, ha, hn, hm]⟩
  · intro hn hm
    exact ⟨by simp [handleFetch, hs, ha, hn, hm], rfl⟩

/-- C2 witness: a default-class request with the network unreachable and an
empty namespace receives the explicit network-error response. -/
theorem default_class_always_response_witness :
    (handleFetch netFail [] ("/api/data")).response = Except.ok Response.netError :=
  ((default_class_always_response netFail [] ("/api/data") (by decide) (by decide)).2
    rfl rfl).1

/-- C2 counterexample: with the network unreachable and no cache entry, an
audio-class request and a shell-class request both terminate in a
propagated rejection, not in a successful or network-error response-shaped
value. -/
theorem handler_rejection_cex :
    (handleFetch netFail [] ("/audio/rain.mp3")).response = Except.error ()
    ∧ (handleFetch netFail [] ("/index.html")).response = Except.error () :=
  ⟨rfl, rfl⟩

/-- C3 (amended): for an audio-class request whose key is absent from the
audio store, a rejected network fetch (unreachable or timeout, surfaced by
the transport as a rejection) propagates to the caller and the namespace is
unchanged — no entry is created. The original claim also counted a resolved
non-2xx response as a failure; the counterexample shows such a response is
returned and stored instead. -/
theorem audio_rejected_fetch_propagates (net : Net) (ns : CacheNamespace) (p : String)
    (hs : isShellRequest p = false) (ha : isAudioRequest p = true)
    (hc : storeMatch (nsOpen ns AUDIO_CACHE_NAME) p = none)
    (hn : net p = Except.error ()) :
    (handleFetch net ns p).response = Except.error ()
    ∧ (handleFetch net ns p).ns = ns := by
  constructor <;> simp [handleFetch, hs, ha, hc, hn]

/-- C3 witness: concrete audio-class request on an unreachable network and
empty namespace: the rejection propagates and no store entry appears. -/
theorem audio_rejected_fetch_propagates_witness :
    (handleFetch netFail [] ("/audio/rain.mp3")).response = Except.error ()
    ∧ (handleFetch netFail [] ("/audio/rain.mp3")).ns = [] :=
  audio_rejected_fetch_propagates netFail [] ("/audio/rain.mp3")
    (by decide) (by decide) rfl rfl

/-- C3 counterexample: an audio-class request whose fetch resolves with
status 404 does not propagate a failure — the 404 response is returned to
the caller and an audio-store entry is created. -/
theorem audio_nonSuccess_stored_cex :
    (handleFetch net404 [] ("/audio/rain.mp3")).response = Except.ok resp404
    ∧ (handleFetch net404 [] ("/audio/rain.mp3")).ns
        = [(AUDIO_CACHE_NAME, [(("/audio/rain.mp3"), resp404)])]
    ∧ resp404.ok = false :=
  ⟨rfl, rfl, by decide⟩

/-- C4: for an audio-class request, a matching audio-store entry is
returned with zero network fetches and an unchanged namespace; on a miss
with a resolving network, the response is returned to the caller, a copy is
stored under the request key, and a subsequent identical request — under
any later network — is served from the store with zero fetches and exactly
the same response value. -/
theorem audio_cache_first_write_through (net net2 : Net) (ns : CacheNamespace) (p : String)
    (hs : isShellRequest p = false) (ha : isAudioRequest p = true) :
    (∀ c, storeMatch (nsOpen ns AUDIO_CACHE_NAME) p = some c →
        handleFetch net ns p = ⟨Except.ok c, ns, 0⟩)
    ∧ (∀ r, storeMatch (nsOpen ns AUDIO_CACHE_NAME) p = none → net p = Except.ok r →
        (handleFetch net ns p).response = Except.ok r
        ∧ (handleFetch net ns p).fetchCount = 1
        ∧ storeMatch (nsOpen (handleFetch net ns p).ns AUDIO_CACHE_NAME) p = some r
        ∧ handleFetch net2 (handleFetch net ns p).ns p
            = ⟨Except.ok r, (handleFetch net ns p).ns, 0⟩) := by
  constructor
  · intro c hc
    simp [handleFetch, hs, ha, hc]
  · intro r hc hn
    have hns : (handleFetch net ns p).ns
        = nsSet ns AUDIO_CACHE_NAME (storePut (nsOpen ns AUDIO_CACHE_NAME) p r) := by
      simp [handleFetch, hs, ha, hc, hn]
    have hmatch : storeMatch (nsOpen (handleFetch net ns p).ns AUDIO_CACHE_NAME) p
        = some r := by
      rw [hns, nsOpen_set_same]
      unfold storePut storeMatch
      rw [lookupKey_setKey]
      simp
    refine ⟨by simp [handleFetch, hs, ha, hc, hn], by simp [handleFetch, hs, ha, hc, hn],
      hmatch, ?_⟩
    rw [hns] at hmatch ⊢
    simp [handleFetch, hs, ha, hmatch]

/-- C4 witness: a first request on a resolving network populates the store;
the identical request afterwards is served from the store with zero fetches
even though the network has become unreachable, with the same response. -/
theorem audio_cache_first_write_through_witness :
    handleFetch netFail (handleFetch netOk [] ("/audio/rain.mp3")).ns ("/audio/rain.mp3")
      = ⟨Except.ok resp200, (handleFetch netOk [] ("/audio/rain.mp3")).ns, 0⟩ :=
  ((audio_cache_first_write_through netOk netFail [] ("/audio/rain.mp3")
      (by decide) (by decide)).2 resp200 rfl rfl).2.2.2

/-- C5: activation deletes exactly the stores whose name is neither the
current shell store name nor carries the audio-store prefix; the audio
store itself is never touched; on the concrete namespace of a version-2
shell, the version-3 shell and the audio store, exactly the version-2 shell
is deleted. -/
theorem activation_reaps_exactly (ns : CacheNamespace) (s2 s3 a : Store) :
    (∀ k, k ∈ nsKeys (activateNs ns) ↔ k ∈ nsKeys ns ∧ shouldDelete k = false)
    ∧ shouldDelete AUDIO_CACHE_NAME = false
    ∧ nsOpen (activateNs ns) AUDIO_CACHE_NAME = nsOpen ns AUDIO_CACHE_NAME
    ∧ activateNs [(("calmstart-shell-v2"), s2), (CACHE_NAME, s3), (AUDIO_CACHE_NAME, a)]
        = [(CACHE_NAME, s3), (AUDIO_CACHE_NAME, a)] := by
  refine ⟨fun k => mem_nsKeys_activate ns k, by decide,
    nsOpen_activate ns AUDIO_CACHE_NAME (by decide), ?_⟩
  have h2 : shouldDelete ("calmstart-shell-v2") = true := by decide
  have h3 : shouldDelete CACHE_NAME = false := by decide
  have h4 : shouldDelete AUDIO_CACHE_NAME = false := by decide
  simp [activateNs, h2, h3, h4]

/-- C6: the install transition is all-or-nothing over the shell asset
list: if any single asset fails to retrieve (rejection or non-ok status),
the install fails, the namespace is unchanged and the previously active
version remains active; when the install succeeds, every shell asset has an
entry in the new shell store. -/
theorem install_all_or_nothing (net : Net) (st : SWState) :
    ((∃ u ∈ SHELL_ASSETS, fetchFailed net u) →
        installSW net st.ns = Except.error () ∧ installAndActivate net st = st)
    ∧ (∀ ns2, installSW net st.ns = Except.ok ns2 →
        ∀ u ∈ SHELL_ASSETS, (storeMatch (nsOpen ns2 CACHE_NAME) u).isSome = true) := by
  constructor
  · rintro ⟨u, hu, hf⟩
    have hfa : fetchAll net SHELL_ASSETS = Except.error () :=
      fetchAll_error_of_failed net SHELL_ASSETS u hu hf
    have hi : installSW net st.ns = Except.error () := by
      simp [installSW, cacheAddAll, hfa]
    exact ⟨hi, by simp [installAndActivate, hi]⟩
  · intro ns2 hi u hu
    cases hca : cacheAddAll net (nsOpen st.ns CACHE_NAME) SHELL_ASSETS with
    | error e =>
      simp only [installSW, hca] at hi
      exact Except.noConfusion hi
    | ok shell =>
      simp only [installSW, hca] at hi
      injection hi with hi2
      subst hi2
      rw [nsOpen_set_same]
      cases hfa : fetchAll net SHELL_ASSETS with
      | error e =>
        simp only [cacheAddAll, hfa] at hca
        exact Except.noConfusion hca
      | ok pairs =>
        simp only [cacheAddAll, hfa] at hca
        injection hca with hca2
        subst hca2
        exact lookupKey_foldl_put_mem pairs _ u
          (by rw [fetchAll_ok_map_fst net SHELL_ASSETS pairs hfa]; exact hu)

/-- C6 witness: on an unreachable network the install fails and the
lifecycle state, including the absence of an active version, is unchanged. -/
theorem install_all_or_nothing_witness :
    installSW netFail (SWState.mk [] none).ns = Except.error ()
    ∧ installAndActivate netFail (SWState.mk [] none) = SWState.mk [] none :=
  (install_all_or_nothing netFail (SWState.mk [] none)).1 ⟨("./"), by decide, trivial⟩

/-- C7: invoking the offline toggle twice in sequence on the same key over
the same network leaves the same store as a single invocation; after a
successful invocation the store holds exactly one entry for the key; and a
failed re-invocation under any later network leaves the prior store
intact. -/
theorem markOffline_idempotent (net : Net) (cache : Store) (url : String) :
    (offlineToggleOn net ((offlineToggleOn net cache url).1) url).1
      = (offlineToggleOn net cache url).1
    ∧ ((offlineToggleOn net cache url).2 = true →
        countKey ((offlineToggleOn net cache url).1) url = 1)
    ∧ (∀ net2, (offlineToggleOn net2 ((offlineToggleOn net cache url).1) url).2 = false →
        (offlineToggleOn net2 ((offlineToggleOn net cache url).1) url).1
          = (offlineToggleOn net cache url).1) := by
  refine ⟨?_, ?_, fun net2 h => offlineToggleOn_fail_unchanged net2 _ url h⟩
  · cases hn : net url with
    | error e => simp [offlineToggleOn, cacheAdd, hn]
    | ok r =>
      by_cases hr : r.ok = true
      · simp [offlineToggleOn, cacheAdd, hn, hr, storePut, setKey_setKey]
      · simp [offlineToggleOn, cacheAdd, hn, hr]
  · intro h2
    cases hn : net url with
    | error e => simp [offlineToggleOn, cacheAdd, hn] at h2
    | ok r =>
      by_cases hr : r.ok = true
      · simp [offlineToggleOn, cacheAdd, hn, hr]
        exact countKey_put cache url r
      · simp [offlineToggleOn, cacheAdd, hn, hr] at h2

/-- C7 witness: a successful toggle on the empty store leaves exactly one
entry for the key. -/
theorem markOffline_idempotent_witness :
    countKey ((offlineToggleOn netOk [] ("/audio/rain.mp3")).1) ("/audio/rain.mp3") = 1 :=
  (markOffline_idempotent netOk [] ("/audio/rain.mp3")).2.1 (by decide)

/-- C8: isSessionCached is a total boolean function of the store outcome:
an internal store error yields false (never true), and on a successful
store open it returns true exactly when a matching entry exists. -/
theorem isCached_total_and_exact (outcome : Except Unit Store) (url : String) :
    (∀ e, outcome = Except.error e → isSessionCached outcome url = false)
    ∧ (∀ cache, outcome = Except.ok cache →
        (isSessionCached outcome url = true ↔ ∃ r, storeMatch cache url = some r)) := by
  constructor
  · rintro e rfl
    rfl
  · rintro cache rfl
    unfold isSessionCached
    exact Option.isSome_iff_exists

/-- C8 witness: a store error yields false. -/
theorem isCached_total_and_exact_witness :
    isSessionCached (Except.error ()) ("/audio/rain.mp3") = false :=
  (isCached_total_and_exact (Except.error ()) ("/audio/rain.mp3")).1 () rfl

/-- C9: a shell-classified request never modifies the namespace; the
response is the stored entry when the namespace-wide lookup finds one,
and otherwise the direct network result. -/
theorem shell_cache_first_no_write (net : Net) (ns : CacheNamespace) (p : String)
    (hs : isShellRequest p = true) :
    (handleFetch net ns p).ns = ns
    ∧ (∀ c, nsMatch ns p = some c → handleFetch net ns p = ⟨Except.ok c, ns, 0⟩)
    ∧ (nsMatch ns p = none → handleFetch net ns p = ⟨net p, ns, 1⟩) := by
  refine ⟨?_, ?_, ?_⟩
  · cases hm : nsMatch ns p <;> simp [handleFetch, hs, hm]
  · intro c hm
    simp [handleFetch, hs, hm]
  · intro hm
    simp [handleFetch, hs, hm]

/-- C9 witness: a shell request on an empty namespace returns the direct
network outcome and leaves the namespace unchanged. -/
theorem shell_cache_first_no_write_witness :
    handleFetch netFail [] ("/index.html") = ⟨netFail ("/index.html"), [], 1⟩ :=
  (shell_cache_first_no_write netFail [] ("/index.html") (by decide)).2.2 rfl

/-- C10: the offline toggle (cache.add) creates an entry only for a
resolved success response — a resolved non-success response makes the
operation fail with the store unchanged — while the audio write-through of
the fetch handler persists any resolved response regardless of status. -/
theorem markOffline_stricter_than_writeThrough (net : Net) (cache : Store) (url : String)
    (r : Response) (hn : net url = Except.ok r) :
    (r.ok = false →
        cacheAdd net cache url = Except.error ()
        ∧ (offlineToggleOn net cache url).1 = cache)
    ∧ (r.ok = true → cacheAdd net cache url = Except.ok (storePut cache url r))
    ∧ (∀ ns, isShellRequest url = false → isAudioRequest url = true →
        storeMatch (nsOpen ns AUDIO_CACHE_NAME) url = none →
        storeMatch (nsOpen (handleFetch net ns url).ns AUDIO_CACHE_NAME) url = some r) := by
  refine ⟨?_, ?_, ?_⟩
  · intro hr
    have hca : cacheAdd net cache url = Except.error () := by
      simp [cacheAdd, hn, hr]
    exact ⟨hca, by simp [offlineToggleOn, hca]⟩
  · intro hr
    simp [cacheAdd, hn, hr]
  · intro ns hs ha hc
    have hns : (handleFetch net ns url).ns
        = nsSet ns AUDIO_CACHE_NAME (storePut (nsOpen ns AUDIO_CACHE_NAME) url r) := by
      simp [handleFetch, hs, ha, hc, hn]
    rw [hns, nsOpen_set_same]
    unfold storePut storeMatch
    rw [lookupKey_setKey]
    simp

/-- C10 witness: a resolved 404 makes the toggle fail with no entry, while
the fetch handler stores the 404 response for the same key. -/
theorem markOffline_stricter_witness :
    (cacheAdd net404 [] ("/audio/rain.mp3") = Except.error ()
      ∧ (offlineToggleOn net404 [] ("/audio/rain.mp3")).1 = [])
    ∧ storeMatch (nsOpen (handleFetch net404 [] ("/audio/rain.mp3")).ns AUDIO_CACHE_NAME)
        ("/audio/rain.mp3") = some resp404 :=
  ⟨(markOffline_stricter_than_writeThrough net404 [] ("/audio/rain.mp3") resp404 rfl).1
      (by decide),
   (markOffline_stricter_than_writeThrough net404 [] ("/audio/rain.mp3") resp404 rfl).2.2
      [] (by decide) (by decide) rfl⟩

end Meditate
